import Mathlib

/-
Verification of the Coup game engine (game.py, game_elements.py).

The Python source is shallowly embedded: each method of `Game` becomes a Lean
function on an explicit `Game` state; Python exceptions (IndexError from
`list.pop`, ValueError from `list.remove`, AssertionError from `assert`,
NameError from a reference to an unassigned local) become `Except String`
errors; the ambient `random.sample` shuffle is an explicit oracle
`sh : List Card → List Card` threaded through the functions that call
`_shuffle_deck`.  Agent callbacks are an `Env` of decision functions, and
every callback made by the engine is recorded in a `Solicit` log, with the
solicited player's liveness captured at call time.
-/

namespace Coup

/-- Card, from game_elements.py (class Card). -/
inductive Card where
  | duke
  | assassin
  | captain
  | ambassador
  | contessa
deriving DecidableEq, Repr

/-- Move, from game_elements.py (class Move). -/
inductive Move where
  | income
  | foreign_aid
  | coup
  | tax
  | assassinate
  | steal
  | exchange
deriving DecidableEq, Repr

/-- Move.enabled_by, from game_elements.py lines 29-39. -/
def Move.enabled_by : Move → Card → Bool
  | .income, _ => true
  | .foreign_aid, _ => true
  | .coup, _ => true
  | .tax, c => c == Card.duke
  | .assassinate, c => c == Card.assassin
  | .steal, c => c == Card.captain
  | .exchange, c => c == Card.ambassador

/-- Move.blockable_by, from game_elements.py lines 41-47.  The Python function
has no branch for INCOME, COUP, TAX, EXCHANGE and silently returns None there;
we model the result as `Option Bool` (`none` = Python `None`). -/
def Move.blockable_by : Move → Card → Option Bool
  | .foreign_aid, c => some (c == Card.duke)
  | .assassinate, c => some (c == Card.contessa)
  | .steal, c => some (c == Card.captain || c == Card.ambassador)
  | _, _ => none

/-- Python truthiness of an `Option Bool` (None is falsy). -/
def truthy : Option Bool → Bool
  | some b => b
  | none => false

/-- Player, from game_elements.py (class Player): hand and coin balance.
The agent and name are external and not part of the mutable game state. -/
structure Player where
  cards : List Card
  coins : Int
deriving DecidableEq, Repr

/-- Player.alive, from game_elements.py line 66-67: `len(self.cards) > 0`. -/
def Player.alive (p : Player) : Bool := decide (0 < p.cards.length)

/-- Game state, from game.py Game.__init__: deck, players (by seat index),
acting player index, and the face-up discard pile (initialized to [] on
line 66 of game.py and never appended to by any method). -/
structure Game where
  deck : List Card
  players : List Player
  acting_player_index : Nat
  face_up_cards : List Card
deriving DecidableEq, Repr

/-- ActionInfo, from game_elements.py: the move an agent declares plus a
turn-relative target index (Python int, possibly negative). -/
structure ActionInfo where
  move : Move
  target_player_index : Option Int
deriving DecidableEq, Repr

/-- GameView, from game.py lines 31-41. -/
structure GameView where
  observer_index : Nat
  observer_coins : Int
  observer_cards : List Card
  other_player_coins : List Int
  other_player_card_counts : List Nat
deriving DecidableEq, Repr

/-- One agent callback made by the engine, with the solicited player's seat
and their liveness at the moment of the call. -/
inductive Solicit where
  | declare (p : Nat) (alive : Bool)
  | challengeDecision (p : Nat) (alive : Bool)
  | blockDecision (p : Nat) (alive : Bool)
  | blockChallengeDecision (p : Nat) (alive : Bool)
  | chooseCards (p : Nat)
deriving DecidableEq, Repr

/-- The environment of agent decisions for one turn plus the shuffle oracle
standing in for `random.sample` (game.py line 77). -/
structure Env where
  action_info : ActionInfo
  challenge_decision : Nat → Bool
  block_decision : Nat → Bool
  block_challenge_decision : Nat → Bool
  choose_cards : List Card → List Card
  sh : List Card → List Card

/-- Game._deal_card, game.py lines 68-69: `self.deck.pop(0)`. -/
def dealCard (g : Game) : Except String (Card × Game) :=
  match g.deck with
  | [] => .error "IndexError: pop from empty list"
  | c :: rest => .ok (c, { g with deck := rest })

/-- Update the player at seat `i`. -/
def setPlayer (g : Game) (i : Nat) (p : Player) : Game :=
  { g with players := g.players.set i p }

/-- Game._return_player_card, game.py lines 71-74: assert membership, remove
the first occurrence from the hand, append to the deck. -/
def returnPlayerCard (g : Game) (pi : Nat) (c : Card) : Except String Game :=
  match g.players[pi]? with
  | none => .error "IndexError: list index out of range"
  | some p =>
    if c ∈ p.cards then
      .ok { (setPlayer g pi { p with cards := p.cards.erase c }) with
            deck := g.deck ++ [c] }
    else .error "AssertionError: Card not in player's hand"

/-- Game._shuffle_deck, game.py lines 76-77, with the shuffle oracle. -/
def shuffleDeck (sh : List Card → List Card) (g : Game) : Game :=
  { g with deck := sh g.deck }

/-- Game._replace_player_card, game.py lines 79-84: return the card, shuffle,
deal a fresh card, append it to the hand. -/
def replacePlayerCard (sh : List Card → List Card) (g : Game) (pi : Nat)
    (c : Card) : Except String (Card × Game) :=
  match returnPlayerCard g pi c with
  | .error e => .error e
  | .ok g1 =>
    let g2 := shuffleDeck sh g1
    match dealCard g2 with
    | .error e => .error e
    | .ok (newCard, g3) =>
      match g3.players[pi]? with
      | none => .error "IndexError: list index out of range"
      | some p =>
        .ok (newCard, setPlayer g3 pi { p with cards := p.cards ++ [newCard] })

/-- Game._lose_influence, game.py lines 258-260: `player.cards.pop(0)`.
The popped card is returned to the caller and recorded nowhere else: it is
appended neither to `face_up_cards` nor back to the deck. -/
def loseInfluence (g : Game) (pi : Nat) : Except String (Card × Game) :=
  match g.players[pi]? with
  | none => .error "IndexError: list index out of range"
  | some p =>
    match p.cards with
    | [] => .error "IndexError: pop from empty list"
    | c :: rest => .ok (c, setPlayer g pi { p with cards := rest })

/-- Game._exchange_cards_to_choose_from, game.py lines 86-87:
`player.cards + [deal(), deal()]`. -/
def exchangeCardsToChooseFrom (g : Game) (pi : Nat) :
    Except String (List Card × Game) :=
  match dealCard g with
  | .error e => .error e
  | .ok (c1, g1) =>
    match dealCard g1 with
    | .error e => .error e
    | .ok (c2, g2) =>
      match g2.players[pi]? with
      | none => .error "IndexError: list index out of range"
      | some p => .ok (p.cards ++ [c1, c2], g2)

/-- Python `list.remove`: drop the first occurrence, ValueError if absent. -/
def removeOne (c : Card) (l : List Card) : Except String (List Card) :=
  if c ∈ l then .ok (l.erase c) else .error "ValueError: list.remove(x): x not in list"

/-- Remove each chosen card in order from the pool, as in the
`for card in chosen_cards: cards_to_return.remove(card)` loop. -/
def removeChosen : List Card → List Card → Except String (List Card)
  | [], pool => .ok pool
  | c :: cs, pool =>
    match removeOne c pool with
    | .error e => .error e
    | .ok pool1 => removeChosen cs pool1

/-- Game._complete_exchange, game.py lines 89-97: the hand becomes the chosen
cards, and the unchosen cards are appended to the deck in order.  No shuffle
is performed (the function does not call `_shuffle_deck`, hence takes no
shuffle oracle). -/
def completeExchange (g : Game) (pi : Nat) (cardsToChooseFrom chosen : List Card) :
    Except String Game :=
  match g.players[pi]? with
  | none => .error "IndexError: list index out of range"
  | some p =>
    let g1 := setPlayer g pi { p with cards := chosen }
    match removeChosen chosen cardsToChooseFrom with
    | .error e => .error e
    | .ok cardsToReturn => .ok { g1 with deck := g1.deck ++ cardsToReturn }

/-- Target resolution from Game.action_from_info, game.py lines 123-132:
`(acting_player_index + target_player_index) % num_players`. -/
def resolveTarget (g : Game) : Option Int → Option Nat
  | none => none
  | some t =>
    some ((((g.acting_player_index : Int) + t).emod (g.players.length : Int)).toNat)

/-- Game._step_nonexchange_action, game.py lines 134-167. -/
def stepNonexchangeAction (g : Game) (actingIdx : Nat) (m : Move)
    (targetIdx : Option Nat) (blocked : Bool) : Except String Game :=
  match g.players[actingIdx]? with
  | none => .error "IndexError: list index out of range"
  | some actor =>
    match m with
    | .exchange => .error "AssertionError: Cannot use _step_nonexchange_action for exchange"
    | .income =>
      if blocked then .error "AssertionError: Cannot block income"
      else .ok (setPlayer g actingIdx { actor with coins := actor.coins + 1 })
    | .foreign_aid =>
      if blocked then .ok g
      else .ok (setPlayer g actingIdx { actor with coins := actor.coins + 2 })
    | .coup =>
      if blocked then .error "AssertionError: Cannot block coup"
      else if actor.coins < 7 ∨ targetIdx = none then .error "ValueError: Invalid coup"
      else
        match targetIdx with
        | none => .error "ValueError: Invalid coup"
        | some ti =>
          let g1 := setPlayer g actingIdx { actor with coins := actor.coins - 7 }
          match loseInfluence g1 ti with
          | .error e => .error e
          | .ok (_, g2) => .ok g2
    | .tax =>
      if blocked then .error "AssertionError: Cannot block tax"
      else .ok (setPlayer g actingIdx { actor with coins := actor.coins + 3 })
    | .assassinate =>
      if actor.coins < 3 ∨ targetIdx = none then
        .error "AssertionError: Invalid assassination"
      else
        match targetIdx with
        | none => .error "AssertionError: Invalid assassination"
        | some ti =>
          let g1 := setPlayer g actingIdx { actor with coins := actor.coins - 3 }
          match g1.players[ti]? with
          | none => .error "IndexError: list index out of range"
          | some target =>
            if !blocked && target.alive then
              match loseInfluence g1 ti with
              | .error e => .error e
              | .ok (_, g2) => .ok g2
            else .ok g1
    | .steal =>
      match targetIdx with
      | none => .error "AssertionError: Invalid steal"
      | some ti =>
        if blocked then .ok g
        else
          match g.players[ti]? with
          | none => .error "IndexError: list index out of range"
          | some target0 =>
            let amt1 := min target0.coins 2
            match g.players[actingIdx]? with
            | none => .error "IndexError: list index out of range"
            | some actor0 =>
              let g1 := setPlayer g actingIdx { actor0 with coins := actor0.coins + amt1 }
              match g1.players[ti]? with
              | none => .error "IndexError: list index out of range"
              | some target1 =>
                let amt2 := min target1.coins 2
                .ok (setPlayer g1 ti { target1 with coins := target1.coins - amt2 })

/-- Game.step_challenge, game.py lines 169-179. -/
def stepChallenge (sh : List Card → List Card) (g : Game) (actingIdx : Nat)
    (m : Move) (challengerIdx : Nat) : Except String (Bool × Card × Game) :=
  match g.players[actingIdx]? with
  | none => .error "IndexError: list index out of range"
  | some actor =>
    let challenge_success := !(actor.cards.any (fun c => m.enabled_by c))
    if challenge_success then
      match loseInfluence g actingIdx with
      | .error e => .error e
      | .ok (cardLost, g1) => .ok (true, cardLost, g1)
    else
      match loseInfluence g challengerIdx with
      | .error e => .error e
      | .ok (cardLost, g1) =>
        match g1.players[actingIdx]? with
        | none => .error "IndexError: list index out of range"
        | some actor1 =>
          match actor1.cards.find? (fun c => m.enabled_by c) with
          | none => .error "StopIteration"
          | some cardRevealed =>
            match replacePlayerCard sh g1 actingIdx cardRevealed with
            | .error e => .error e
            | .ok (_, g2) => .ok (false, cardLost, g2)

/-- Game.step_block_challenge, game.py lines 181-190. -/
def stepBlockChallenge (sh : List Card → List Card) (g : Game) (actingIdx : Nat)
    (m : Move) (blockingIdx : Nat) : Except String (Bool × Card × Game) :=
  match g.players[blockingIdx]? with
  | none => .error "IndexError: list index out of range"
  | some blocker =>
    let challenge_success := !(blocker.cards.any (fun c => truthy (m.blockable_by c)))
    if challenge_success then
      match loseInfluence g blockingIdx with
      | .error e => .error e
      | .ok (cardLost, g1) => .ok (true, cardLost, g1)
    else
      match loseInfluence g actingIdx with
      | .error e => .error e
      | .ok (cardLost, g1) =>
        match g1.players[blockingIdx]? with
        | none => .error "IndexError: list index out of range"
        | some blocker1 =>
          match blocker1.cards.find? (fun c => truthy (m.blockable_by c)) with
          | none => .error "StopIteration"
          | some cardRevealed =>
            match replacePlayerCard sh g1 blockingIdx cardRevealed with
            | .error e => .error e
            | .ok (_, g2) => .ok (false, cardLost, g2)

/-- The challenge loop of Game.play_turn, game.py lines 200-208, walking the
candidate offsets `i` of `_iterate_other_players` (game.py lines 105-110):
seat `(acting + i) % n`, skipped when not alive, and the loop breaks at the
first player whose challenge decision is true.  Results: the solicitation
log, and on success the state, `will_take_action`, whether any player was
asked (i.e. whether the Python local `challenged` was ever assigned), and
the resolved challenge outcome (challenger seat, success, card lost). -/
def challengeLoopAux (sh : List Card → List Card) (chDec : Nat → Bool)
    (actingIdx : Nat) (m : Move) (g : Game) :
    List Nat → List Solicit × Except String (Game × Bool × Bool × Option (Nat × Bool × Card))
  | [] => ([], .ok (g, true, false, none))
  | i :: rest =>
    let n := g.players.length
    let idx := (actingIdx + i) % n
    match g.players[idx]? with
    | none => ([], .error "IndexError: list index out of range")
    | some p =>
      if p.alive then
        let entry := Solicit.challengeDecision idx p.alive
        if chDec idx then
          match stepChallenge sh g actingIdx m idx with
          | .error e => ([entry], .error e)
          | .ok (success, cardLost, g1) =>
            ([entry], .ok (g1, !success, true, some (idx, success, cardLost)))
        else
          match challengeLoopAux sh chDec actingIdx m g rest with
          | (log, res) =>
            (entry :: log,
             match res with
             | .error e => .error e
             | .ok (g2, wta, _, outc) => .ok (g2, wta, true, outc))
      else challengeLoopAux sh chDec actingIdx m g rest

/-- The block loop of Game.play_turn, game.py lines 210-220.  Unlike the
challenge loop there is no `break`: every living candidate is asked, each
affirmative block is resolved in place (possibly via a counter-challenge),
and later resolutions overwrite `blocked`.  Liveness is checked against the
current state at each iteration, as the Python generator does.  Results: the
log, and on success the state, `blocked`, whether any player was asked
(whether `block_attempted` was ever assigned), and the last-assigned value
of `block_attempted`. -/
def blockLoopAux (sh : List Card → List Card) (blDec bcDec : Nat → Bool)
    (actingIdx : Nat) (m : Move) (g : Game) (blocked : Bool) :
    List Nat → List Solicit × Except String (Game × Bool × Bool × Bool)
  | [] => ([], .ok (g, blocked, false, false))
  | i :: rest =>
    let n := g.players.length
    let idx := (actingIdx + i) % n
    match g.players[idx]? with
    | none => ([], .error "IndexError: list index out of range")
    | some p =>
      if p.alive then
        let entry := Solicit.blockDecision idx p.alive
        if blDec idx then
          let actorAlive := match g.players[actingIdx]? with
            | some a => a.alive
            | none => false
          let entry2 := Solicit.blockChallengeDecision actingIdx actorAlive
          if bcDec idx then
            match stepBlockChallenge sh g actingIdx m idx with
            | .error e => ([entry, entry2], .error e)
            | .ok (success, _, g1) =>
              match blockLoopAux sh blDec bcDec actingIdx m g1 (!success) rest with
              | (log, res) =>
                (entry :: entry2 :: log,
                 match res with
                 | .error e => .error e
                 | .ok (g2, b2, anyAsked2, baf2) =>
                   .ok (g2, b2, true, if anyAsked2 then baf2 else true))
          else
            match blockLoopAux sh blDec bcDec actingIdx m g true rest with
            | (log, res) =>
              (entry :: entry2 :: log,
               match res with
               | .error e => .error e
               | .ok (g2, b2, anyAsked2, baf2) =>
                 .ok (g2, b2, true, if anyAsked2 then baf2 else true))
        else
          match blockLoopAux sh blDec bcDec actingIdx m g blocked rest with
          | (log, res) =>
            (entry :: log,
             match res with
             | .error e => .error e
             | .ok (g2, b2, anyAsked2, baf2) =>
               .ok (g2, b2, true, if anyAsked2 then baf2 else false))
      else blockLoopAux sh blDec bcDec actingIdx m g blocked rest

/-- Target liveness validation from Game.play_turn, game.py lines 197-198. -/
def checkTarget (g : Game) : Option Nat → Except String Unit
  | none => .ok ()
  | some ti =>
    match g.players[ti]? with
    | none => .error "IndexError: list index out of range"
    | some t => if t.alive then .ok () else .error "AssertionError: Invalid target player"

/-- The effect step of Game.play_turn, game.py lines 222-228: when
`will_take_action`, an Exchange first deals two cards via
`_exchange_cards_to_choose_from`; then line 225 calls
`current_player.choose_cards(...)`, and `Player` (game_elements.py) defines
no such method — only the test MockAgent does, on the agent — so the call
raises AttributeError before `_complete_exchange` is ever reached and no
agent callback is made.  Any other move goes through
`_step_nonexchange_action` with the final `blocked` flag. -/
def effectStep (env : Env) (actingIdx : Nat) (m : Move) (targetIdx : Option Nat)
    (wta blocked : Bool) (g : Game) : List Solicit × Except String Game :=
  if wta then
    if m = Move.exchange then
      match exchangeCardsToChooseFrom g actingIdx with
      | .error e => ([], .error e)
      | .ok (_, _) =>
        ([], .error "AttributeError: Player object has no attribute choose_cards")
    else ([], stepNonexchangeAction g actingIdx m targetIdx blocked)
  else ([], .ok g)

/-- Game.to_game_view, game.py lines 262-272, exactly as written: the other
players are `self.players[observer_index + i]` (no modulo) for
`i in range(1, num_players)` filtered by `i != observer_index`; an index past
the end of the list is a Python IndexError. -/
def toGameView (g : Game) (o : Nat) : Except String GameView :=
  match g.players[o]? with
  | none => .error "IndexError: list index out of range"
  | some me =>
    let idxs := (List.range' 1 (g.players.length - 1)).filter (fun i => i ≠ o)
    match idxs.mapM (fun i =>
        match g.players[o + i]? with
        | none => Except.error "IndexError: list index out of range"
        | some p => Except.ok p) with
    | .error e => .error e
    | .ok others =>
      .ok { observer_index := o
            observer_coins := me.coins
            observer_cards := me.cards
            other_player_coins := others.map (fun p => p.coins)
            other_player_card_counts := others.map (fun p => p.cards.length) }

/-- The observation step of Game.play_turn, game.py lines 230-246: building
the first TurnView reads the locals `challenged` and `block_attempted`, a
NameError when the corresponding loop never ran an iteration; then a
GameView is computed for every observer index. -/
def observationStep (g : Game) (chAsked blAsked : Bool) :
    Except String (List GameView) :=
  if chAsked = false then .error "NameError: name given to challenged is not defined"
  else if blAsked = false then .error "NameError: name given to block_attempted is not defined"
  else (List.range g.players.length).mapM (fun i => toGameView g i)

/-- Game.play_turn, game.py lines 192-248, assembled from the phases above,
paired with the full solicitation log (also on error). -/
def playTurn (env : Env) (g : Game) : Except String Game × List Solicit :=
  let actingIdx := g.acting_player_index
  let n := g.players.length
  match g.players[actingIdx]? with
  | none => (.error "IndexError: list index out of range", [])
  | some current =>
    let log0 := [Solicit.declare actingIdx current.alive]
    let m := env.action_info.move
    let targetIdx := resolveTarget g env.action_info.target_player_index
    match checkTarget g targetIdx with
    | .error e => (.error e, log0)
    | .ok _ =>
      match challengeLoopAux env.sh env.challenge_decision actingIdx m g
          (List.range' 1 (n - 1)) with
      | (chLog, .error e) => (.error e, log0 ++ chLog)
      | (chLog, .ok (g1, wta, chAsked, _outc)) =>
        match blockLoopAux env.sh env.block_decision env.block_challenge_decision
            actingIdx m g1 false (List.range' 1 (n - 1)) with
        | (blLog, .error e) => (.error e, log0 ++ chLog ++ blLog)
        | (blLog, .ok (g2, blocked, blAsked, _baf)) =>
          match effectStep env actingIdx m targetIdx wta blocked g2 with
          | (effLog, .error e) => (.error e, log0 ++ chLog ++ blLog ++ effLog)
          | (effLog, .ok g3) =>
            match observationStep g3 chAsked blAsked with
            | .error e => (.error e, log0 ++ chLog ++ blLog ++ effLog)
            | .ok _views =>
              (.ok { g3 with
                     acting_player_index := (actingIdx + 1) % g3.players.length },
               log0 ++ chLog ++ blLog ++ effLog)

/-- Repeated `deck.pop(0)`, for the initial deal. -/
def popN : Nat → List Card → Except String (List Card × List Card)
  | 0, d => .ok ([], d)
  | _ + 1, [] => .error "IndexError: pop from empty list"
  | k + 1, c :: d =>
    match popN k d with
    | .error e => .error e
    | .ok (cs, d1) => .ok (c :: cs, d1)

/-- Game.__init__, game.py lines 44-66, on an already-shuffled deck.  The
size assertion is checked first.  With one or more players, the first
`Player(...)` construction (line 55) evaluates its keyword arguments — the
`cards` comprehension deals `cardsPerPlayer` cards off the top of the deck —
and then the call itself raises TypeError, because game.py line 57 passes
`name=name` while `Player.__init__` (game_elements.py line 61) has no `name`
parameter; construction never reaches the initial GameViews of line 64.
With zero players the comprehension is empty and the game is built. -/
def initGame (shuffled : List Card) (numPlayers cardsPerPlayer : Nat)
    (startingCoins : Int) : Except String Game :=
  if numPlayers * cardsPerPlayer + 2 > shuffled.length then
    .error "AssertionError: deck too small"
  else
    match numPlayers with
    | 0 =>
      .ok { deck := shuffled, players := [], acting_player_index := 0, face_up_cards := [] }
    | _ + 1 =>
      match popN cardsPerPlayer shuffled with
      | .error e => .error e
      | .ok _ =>
        .error "TypeError: Player.__init__ got an unexpected keyword argument"

/-- Total number of cards accounted for by the game state: deck, all hands,
and the face-up discard pile (spec section 8, card conservation). -/
def totalCards (g : Game) : Nat :=
  g.deck.length + (g.players.map (fun p => p.cards.length)).sum + g.face_up_cards.length

/-- The property that a challenge- or block-decision solicitation was made to
a player alive at the moment of the call (other solicitations unrestricted). -/
def decisionSolicitsLiving : Solicit → Prop
  | .challengeDecision _ b => b = true
  | .blockDecision _ b => b = true
  | _ => True

/-- A 2-player state whose current player (seat 0) is already dead. -/
def gC2 : Game :=
  { deck := [Card.captain]
    players := [{ cards := [], coins := 2 }, { cards := [Card.duke], coins := 2 }]
    acting_player_index := 0
    face_up_cards := [] }

/-- The dead current player declares Income; nobody challenges or blocks. -/
def envC2 : Env :=
  { action_info := { move := Move.income, target_player_index := none }
    challenge_decision := fun _ => false
    block_decision := fun _ => false
    block_challenge_decision := fun _ => false
    choose_cards := fun l => l
    sh := fun l => l }

/-- A 3-player state, everyone alive. -/
def gC3 : Game :=
  { deck := [Card.captain]
    players := [{ cards := [Card.duke], coins := 2 }, { cards := [Card.duke], coins := 2 },
                { cards := [Card.duke], coins := 2 }]
    acting_player_index := 0
    face_up_cards := [] }

/-- Seat 0 declares Foreign Aid; both opponents opt to block; the actor never
counter-challenges. -/
def envC3 : Env :=
  { action_info := { move := Move.foreign_aid, target_player_index := none }
    challenge_decision := fun _ => false
    block_decision := fun _ => true
    block_challenge_decision := fun _ => false
    choose_cards := fun l => l
    sh := fun l => l }

/-- A 2-player state, everyone alive. -/
def gC9 : Game :=
  { deck := [Card.captain]
    players := [{ cards := [Card.duke], coins := 2 }, { cards := [Card.duke], coins := 2 }]
    acting_player_index := 0
    face_up_cards := [] }

/-- Seat 0 declares Income (a move with no blocking roles); every decision
callback answers no. -/
def envC9 : Env :=
  { action_info := { move := Move.income, target_player_index := none }
    challenge_decision := fun _ => false
    block_decision := fun _ => false
    block_challenge_decision := fun _ => false
    choose_cards := fun l => l
    sh := fun l => l }

/-- A 2-player state with distinct coin counts and hands. -/
def gC6a : Game :=
  { deck := []
    players := [{ cards := [Card.duke], coins := 5 }, { cards := [Card.assassin], coins := 4 }]
    acting_player_index := 0
    face_up_cards := [] }

/-- A 3-player state, everyone alive. -/
def gC6b : Game :=
  { deck := []
    players := [{ cards := [Card.duke], coins := 2 }, { cards := [Card.assassin], coins := 2 },
                { cards := [Card.captain], coins := 2 }]
    acting_player_index := 0
    face_up_cards := [] }

/-- A 2-player state where seat 0 holds an Ambassador and will exchange. -/
def gC7 : Game :=
  { deck := [Card.duke, Card.captain, Card.contessa]
    players := [{ cards := [Card.ambassador], coins := 2 }, { cards := [Card.duke], coins := 2 }]
    acting_player_index := 0
    face_up_cards := [] }

/-- Seat 0 declares Exchange and nobody contests; the shuffle oracle is
`List.reverse`, a nontrivial permutation, to expose whether reshuffling
happens.  (The `choose_cards` entry is part of the agent capability
interface, but the engine never reaches an agent for it: `Player` has no
`choose_cards` method, see `effectStep`.) -/
def envC7 : Env :=
  { action_info := { move := Move.exchange, target_player_index := none }
    challenge_decision := fun _ => false
    block_decision := fun _ => false
    block_challenge_decision := fun _ => false
    choose_cards := fun l => l.drop 2
    sh := fun l => l.reverse }

/-- The state of `gC7` after `_exchange_cards_to_choose_from` has dealt the
two extra cards (DUKE and CAPTAIN), leaving CONTESSA as the deck. -/
def gC7Mid : Game :=
  { deck := [Card.contessa]
    players := [{ cards := [Card.ambassador], coins := 2 }, { cards := [Card.duke], coins := 2 }]
    acting_player_index := 0
    face_up_cards := [] }

/-- Coin balance of the player at seat `i` (0 when the seat does not exist). -/
def playerCoins (g : Game) (i : Nat) : Int :=
  match g.players[i]? with
  | some p => p.coins
  | none => 0

/-- Hand size of the player at seat `i` (0 when the seat does not exist). -/
def playerHandLen (g : Game) (i : Nat) : Nat :=
  match g.players[i]? with
  | some p => p.cards.length
  | none => 0

/-- Coin balance of seat `i` in the state of a successful step. -/
def okCoins (r : Except String Game) (i : Nat) : Option Int :=
  match r with
  | .ok g => some (playerCoins g i)
  | .error _ => none

/-- Hand size of seat `i` in the state of a successful step. -/
def okHandLen (r : Except String Game) (i : Nat) : Option Nat :=
  match r with
  | .ok g => some (playerHandLen g i)
  | .error _ => none

/-- Deck of the state of a successful step. -/
def okDeck (r : Except String Game) : Option (List Card) :=
  match r with
  | .ok g => some g.deck
  | .error _ => none

/-- Sum of all hand sizes. -/
def handSum (l : List Player) : Nat := (l.map (fun p => p.cards.length)).sum

/-- Decidable equality for `Except`, so concrete runs can be checked by `decide`. -/
def exceptDecEq {ε α : Type} [DecidableEq ε] [DecidableEq α] :
    DecidableEq (Except ε α) := fun a b =>
  match a, b with
  | .error x, .error y =>
    if h : x = y then .isTrue (by rw [h])
    else .isFalse (by intro hh; cases hh; exact h rfl)
  | .error _, .ok _ => .isFalse (by intro hh; cases hh)
  | .ok _, .error _ => .isFalse (by intro hh; cases hh)
  | .ok x, .ok y =>
    if h : x = y then .isTrue (by rw [h])
    else .isFalse (by intro hh; cases hh; exact h rfl)

instance {ε α : Type} [DecidableEq ε] [DecidableEq α] : DecidableEq (Except ε α) :=
  exceptDecEq

def gC1w : Game :=
  { deck := [Card.captain]
    players := [{ cards := [Card.assassin], coins := 2 }, { cards := [Card.contessa], coins := 2 }]
    acting_player_index := 0
    face_up_cards := [] }

def gC1wAfter : Game :=
  { deck := [Card.captain]
    players := [{ cards := [], coins := 2 }, { cards := [Card.contessa], coins := 2 }]
    acting_player_index := 0
    face_up_cards := [] }

def gC5w : Game :=
  { deck := [Card.captain]
    players := [{ cards := [Card.assassin], coins := 7 }, { cards := [Card.contessa, Card.duke], coins := 2 }]
    acting_player_index := 0
    face_up_cards := [] }

def gC8w : Game :=
  { deck := []
    players := [{ cards := [Card.captain], coins := 2 }, { cards := [Card.duke], coins := 1 }]
    acting_player_index := 0
    face_up_cards := [] }

def gC10 : Game :=
  { deck := [Card.captain]
    players := [{ cards := [Card.duke, Card.duke], coins := 7 }, { cards := [Card.contessa], coins := 2 }]
    acting_player_index := 0
    face_up_cards := [] }

def envC10 : Env :=
  { action_info := { move := Move.coup, target_player_index := some 1 }
    challenge_decision := fun _ => true
    block_decision := fun _ => false
    block_challenge_decision := fun _ => false
    choose_cards := fun l => l
    sh := fun l => l }

def gC10w : Game :=
  { deck := [Card.captain]
    players := [{ cards := [Card.duke], coins := 7 }, { cards := [], coins := 2 }]
    acting_player_index := 0
    face_up_cards := [] }

def gC4w : Game :=
  { deck := [Card.captain]
    players := [{ cards := [Card.assassin], coins := 2 }, { cards := [Card.contessa], coins := 2 }]
    acting_player_index := 0
    face_up_cards := [] }

def gC4wAfter : Game :=
  { deck := [Card.captain]
    players := [{ cards := [], coins := 2 }, { cards := [Card.contessa], coins := 2 }]
    acting_player_index := 0
    face_up_cards := [] }

theorem handSum_set : ∀ (l : List Player) (i : Nat) (p q : Player),
    l[i]? = some p →
    handSum (l.set i q) + p.cards.length = handSum l + q.cards.length := by
  intro l
  induction l with
  | nil => intro i p q h; rw [List.getElem?_nil] at h; exact Option.noConfusion h
  | cons hd tl ih =>
    intro i p q h
    cases i with
    | zero =>
      rw [List.getElem?_cons_zero] at h
      injection h with h0
      subst h0
      show handSum (q :: tl) + hd.cards.length = handSum (hd :: tl) + q.cards.length
      simp [handSum]
      omega
    | succ n =>
      rw [List.getElem?_cons_succ] at h
      have h2 := ih n p q h
      show handSum (hd :: tl.set n q) + p.cards.length = handSum (hd :: tl) + q.cards.length
      simp [handSum] at h2 ⊢
      omega

theorem get?_set_same {α : Type} (l : List α) (i : Nat) (a : α) (h : i < l.length) :
    (l.set i a)[i]? = some a := List.getElem?_set_eq_of_lt a h

theorem get?_set_diff {α : Type} (l : List α) (i j : Nat) (a : α) (h : i ≠ j) :
    (l.set i a)[j]? = l[j]? := List.getElem?_set_ne h

theorem lt_of_get?_some {α : Type} (l : List α) (i : Nat) (a : α)
    (h : l[i]? = some a) : i < l.length := (List.getElem?_eq_some.mp h).1

theorem loseInfluence_eq_ok (g : Game) (pi : Nat) (p : Player) (c0 : Card)
    (rest : List Card) (hp : g.players[pi]? = some p) (hc : p.cards = c0 :: rest) :
    loseInfluence g pi = Except.ok (c0, setPlayer g pi { p with cards := rest }) := by
  simp only [loseInfluence, hp, hc]

theorem loseInfluence_eq_error (g : Game) (pi : Nat) (p : Player)
    (hp : g.players[pi]? = some p) (hc : p.cards = []) :
    loseInfluence g pi = Except.error "IndexError: pop from empty list" := by
  simp only [loseInfluence, hp, hc]

/-- Claim C1.  The code refutes card conservation: `_lose_influence`
(game.py lines 258-260) pops the first card of the hand and records it
nowhere — the deck and the `face_up_cards` pile are unchanged — so the total
`deck_size + Σ hand_size_i + discarded_count` strictly decreases by one at
every influence loss instead of staying equal to the number of cards the
game started with. -/
theorem claim_C1_influence_loss_destroys_a_card :
    ∀ (g : Game) (pi : Nat) (c : Card) (g' : Game),
      loseInfluence g pi = Except.ok (c, g') →
      totalCards g' + 1 = totalCards g ∧
      g'.deck = g.deck ∧ g'.face_up_cards = g.face_up_cards := by
  intro g pi c g' h
  cases hp : g.players[pi]? with
  | none =>
    simp only [loseInfluence, hp] at h
    exact Except.noConfusion h
  | some p =>
    cases hc : p.cards with
    | nil =>
      simp only [loseInfluence, hp, hc] at h
      exact Except.noConfusion h
    | cons c0 rest =>
      simp only [loseInfluence, hp, hc] at h
      injection h with h1
      injection h1 with hcc hgg
      subst hcc
      subst hgg
      refine ⟨?_, rfl, rfl⟩
      have hs := handSum_set g.players pi p { p with cards := rest } hp
      simp only [totalCards, setPlayer]
      have hlen : p.cards.length = rest.length + 1 := by rw [hc]; simp
      simp only [handSum] at hs
      rw [hlen] at hs
      simp at hs ⊢
      omega

/-- Witness for claim C1: a concrete influence loss, with the card count
dropping from 3 to 2 while the face-up pile stays empty. -/
theorem claim_C1_witness :
    loseInfluence gC1w 0 = Except.ok (Card.assassin, gC1wAfter) ∧
    totalCards gC1wAfter + 1 = totalCards gC1w ∧
    gC1wAfter.face_up_cards = gC1w.face_up_cards :=
  ⟨by decide,
   (claim_C1_influence_loss_destroys_a_card gC1w 0 Card.assassin gC1wAfter (by decide)).1,
   (claim_C1_influence_loss_destroys_a_card gC1w 0 Card.assassin gC1wAfter (by decide)).2.2⟩

/-- Claim C5.  In `_step_nonexchange_action` (game.py lines 147-160) the
Assassinate branch deducts 3 coins before the `blocked` test, so the cost is
paid for both values of `blocked`, while the target loses a card iff the move
is unblocked and the target is alive at effect time; the Coup branch deducts
7 coins and takes a card when unblocked, and a blocked Coup is an assertion
failure, so no reachable blocked Coup ever skips the cost. -/
theorem claim_C5_assassinate_and_coup_costs :
    ∀ (g : Game) (aIdx ti : Nat) (actor target : Player),
      g.players[aIdx]? = some actor →
      g.players[ti]? = some target →
      aIdx ≠ ti →
      (((3 : Int) ≤ actor.coins →
        ∀ b : Bool,
          okCoins (stepNonexchangeAction g aIdx Move.assassinate (some ti) b) aIdx =
            some (actor.coins - 3) ∧
          okHandLen (stepNonexchangeAction g aIdx Move.assassinate (some ti) b) ti =
            some (if b = false ∧ target.alive = true
                  then target.cards.length - 1 else target.cards.length)) ∧
       ((7 : Int) ≤ actor.coins → target.alive = true →
        okCoins (stepNonexchangeAction g aIdx Move.coup (some ti) false) aIdx =
          some (actor.coins - 7) ∧
        okHandLen (stepNonexchangeAction g aIdx Move.coup (some ti) false) ti =
          some (target.cards.length - 1) ∧
        stepNonexchangeAction g aIdx Move.coup (some ti) true =
          Except.error "AssertionError: Cannot block coup")) := by
  intro g aIdx ti actor target ha ht hne
  have haLt : aIdx < g.players.length := lt_of_get?_some _ _ _ ha
  have hne' : ti ≠ aIdx := fun hh => hne hh.symm
  have hget3 : (g.players.set aIdx { actor with coins := actor.coins - 3 })[ti]? =
      some target := by rw [get?_set_diff _ _ _ _ hne]; exact ht
  have hget7 : (g.players.set aIdx { actor with coins := actor.coins - 7 })[ti]? =
      some target := by rw [get?_set_diff _ _ _ _ hne]; exact ht
  have htiLt3 : ti < (g.players.set aIdx { actor with coins := actor.coins - 3 }).length :=
    lt_of_get?_some _ _ _ hget3
  have htiLt7 : ti < (g.players.set aIdx { actor with coins := actor.coins - 7 }).length :=
    lt_of_get?_some _ _ _ hget7
  constructor
  · intro h3 b
    have hcond : ¬(actor.coins < 3 ∨ (some ti : Option Nat) = none) := by
      push_neg
      exact ⟨h3, by simp⟩
    cases b with
    | true =>
      have hstep : stepNonexchangeAction g aIdx Move.assassinate (some ti) true =
          Except.ok (setPlayer g aIdx { actor with coins := actor.coins - 3 }) := by
        simp only [stepNonexchangeAction, ha, if_neg hcond, setPlayer, hget3]
        simp
      rw [hstep]
      constructor
      · simp only [okCoins, playerCoins, setPlayer]
        rw [get?_set_same _ _ _ haLt]
      · simp only [okHandLen, playerHandLen, setPlayer, hget3]
        simp
    | false =>
      cases hal : target.alive with
      | false =>
        have hstep : stepNonexchangeAction g aIdx Move.assassinate (some ti) false =
            Except.ok (setPlayer g aIdx { actor with coins := actor.coins - 3 }) := by
          simp only [stepNonexchangeAction, ha, if_neg hcond, setPlayer, hget3, hal]
          simp
        rw [hstep]
        constructor
        · simp only [okCoins, playerCoins, setPlayer]
          rw [get?_set_same _ _ _ haLt]
        · simp only [okHandLen, playerHandLen, setPlayer, hget3]
          simp [hal]
      | true =>
        have hcards : 0 < target.cards.length := of_decide_eq_true hal
        obtain ⟨c0, rest, hcs⟩ : ∃ c0 rest, target.cards = c0 :: rest := by
          cases hcc : target.cards with
          | nil => rw [hcc] at hcards; simp at hcards
          | cons a b => exact ⟨a, b, rfl⟩
        have hlose := loseInfluence_eq_ok
          (setPlayer g aIdx { actor with coins := actor.coins - 3 }) ti target c0 rest
          (by simpa [setPlayer] using hget3) hcs
        simp only [setPlayer] at hlose
        have hstep : stepNonexchangeAction g aIdx Move.assassinate (some ti) false =
            Except.ok (setPlayer (setPlayer g aIdx { actor with coins := actor.coins - 3 })
              ti { target with cards := rest }) := by
          simp only [stepNonexchangeAction, ha, if_neg hcond, setPlayer, hget3, hal, hlose]
          simp [setPlayer]
        rw [hstep]
        constructor
        · simp only [okCoins, playerCoins, setPlayer]
          rw [get?_set_diff _ _ _ _ hne', get?_set_same _ _ _ haLt]
        · simp only [okHandLen, playerHandLen, setPlayer]
          rw [get?_set_same _ ti _ (by simpa using htiLt3)]
          simp [hal, hcs]
  · intro h7 hal
    have hcards : 0 < target.cards.length := of_decide_eq_true hal
    obtain ⟨c0, rest, hcs⟩ : ∃ c0 rest, target.cards = c0 :: rest := by
      cases hcc : target.cards with
      | nil => rw [hcc] at hcards; simp at hcards
      | cons a b => exact ⟨a, b, rfl⟩
    have hcond : ¬(actor.coins < 7 ∨ (some ti : Option Nat) = none) := by
      push_neg
      exact ⟨h7, by simp⟩
    have hlose := loseInfluence_eq_ok
      (setPlayer g aIdx { actor with coins := actor.coins - 7 }) ti target c0 rest
      (by simpa [setPlayer] using hget7) hcs
    simp only [setPlayer] at hlose
    have hstep : stepNonexchangeAction g aIdx Move.coup (some ti) false =
        Except.ok (setPlayer (setPlayer g aIdx { actor with coins := actor.coins - 7 })
          ti { target with cards := rest }) := by
      simp only [stepNonexchangeAction, ha, if_neg hcond, setPlayer, hlose]
      simp [setPlayer]
    refine ⟨?_, ?_, ?_⟩
    · rw [hstep]
      simp only [okCoins, playerCoins, setPlayer]
      rw [get?_set_diff _ _ _ _ hne', get?_set_same _ _ _ haLt]
    · rw [hstep]
      simp only [okHandLen, playerHandLen, setPlayer]
      rw [get?_set_same _ ti _ (by simpa using htiLt7)]
      simp [hcs]
    · simp only [stepNonexchangeAction, ha]
      simp

/-- Witness for claim C5 at a concrete 2-player state: a blocked Assassinate
still costs 3 coins and removes no card; an unblocked Coup costs 7 and takes
one card. -/
theorem claim_C5_witness :
    okCoins (stepNonexchangeAction gC5w 0 Move.assassinate (some 1) true) 0 = some 4 ∧
    okHandLen (stepNonexchangeAction gC5w 0 Move.assassinate (some 1) true) 1 = some 2 ∧
    okCoins (stepNonexchangeAction gC5w 0 Move.coup (some 1) false) 0 = some 0 ∧
    okHandLen (stepNonexchangeAction gC5w 0 Move.coup (some 1) false) 1 = some 1 := by
  have h := claim_C5_assassinate_and_coup_costs gC5w 0 1
    { cards := [Card.assassin], coins := 7 } { cards := [Card.contessa, Card.duke], coins := 2 }
    (by decide) (by decide) (by decide)
  have h1 := h.1 (by decide) true
  have h2 := h.2 (by decide) (by decide)
  exact ⟨h1.1, by simpa using h1.2, h2.1, by simpa using h2.2.1⟩

/-- Claim C8.  In the Steal branch of `_step_nonexchange_action`
(game.py lines 161-165) the actor gains and the target loses exactly
`min(target_coins_before, 2)` coins, and a non-negative target balance stays
non-negative. -/
theorem claim_C8_steal_conservation :
    ∀ (g : Game) (aIdx ti : Nat) (actor target : Player),
      g.players[aIdx]? = some actor →
      g.players[ti]? = some target →
      aIdx ≠ ti →
      okCoins (stepNonexchangeAction g aIdx Move.steal (some ti) false) aIdx =
        some (actor.coins + min target.coins 2) ∧
      okCoins (stepNonexchangeAction g aIdx Move.steal (some ti) false) ti =
        some (target.coins - min target.coins 2) ∧
      (0 ≤ target.coins → 0 ≤ target.coins - min target.coins 2) := by
  intro g aIdx ti actor target ha ht hne
  have haLt : aIdx < g.players.length := lt_of_get?_some _ _ _ ha
  have hget1 : (g.players.set aIdx { actor with coins := actor.coins + min target.coins 2 })[ti]? =
      some target := by rw [get?_set_diff _ _ _ _ hne]; exact ht
  have htiLt : ti < (g.players.set aIdx { actor with coins := actor.coins + min target.coins 2 }).length :=
    lt_of_get?_some _ _ _ hget1
  have hstep : stepNonexchangeAction g aIdx Move.steal (some ti) false =
      Except.ok (setPlayer
        (setPlayer g aIdx { actor with coins := actor.coins + min target.coins 2 })
        ti { target with coins := target.coins - min target.coins 2 }) := by
    simp only [stepNonexchangeAction, ha, ht, setPlayer, hget1]
    simp
  rw [hstep]
  refine ⟨?_, ?_, ?_⟩
  · simp only [okCoins, playerCoins, setPlayer]
    rw [get?_set_diff _ _ _ _ (fun hh => hne hh.symm),
      get?_set_same g.players aIdx _ haLt]
  · simp only [okCoins, playerCoins, setPlayer]
    rw [get?_set_same _ ti _ (by simpa using htiLt)]
  · intro h0
    have := min_le_left target.coins 2
    omega

/-- Witness for claim C8 at a concrete state: the target holds 1 coin, so
both the gain and the loss are 1, and the target ends at 0, not negative. -/
theorem claim_C8_witness :
    okCoins (stepNonexchangeAction gC8w 0 Move.steal (some 1) false) 0 = some 3 ∧
    okCoins (stepNonexchangeAction gC8w 0 Move.steal (some 1) false) 1 = some 0 := by
  have h := claim_C8_steal_conservation gC8w 0 1
    { cards := [Card.captain], coins := 2 } { cards := [Card.duke], coins := 1 }
    (by decide) (by decide) (by decide)
  exact ⟨by simpa using h.1, by simpa using h.2.1⟩

/-- Claim C10.  The Coup branch of `_step_nonexchange_action` calls
`_lose_influence` without re-checking the target's liveness, so an
empty-handed target makes the first-card pop an IndexError rather than a
no-op, whereas the Assassinate branch checks `target_player.alive()` and
skips the loss.  The situation is reachable: in the concrete run `envC10`,
the target (alive at declaration) challenges its own Coup, loses its last
card as the failed challenger, and the Coup's effect step then raises. -/
theorem claim_C10_coup_effect_skips_liveness_recheck :
    (∀ (g : Game) (aIdx ti : Nat) (actor target : Player),
      g.players[aIdx]? = some actor →
      g.players[ti]? = some target →
      aIdx ≠ ti → (7 : Int) ≤ actor.coins → target.cards = [] →
      stepNonexchangeAction g aIdx Move.coup (some ti) false =
        Except.error "IndexError: pop from empty list") ∧
    (∀ (g : Game) (aIdx ti : Nat) (actor target : Player),
      g.players[aIdx]? = some actor →
      g.players[ti]? = some target →
      aIdx ≠ ti → (3 : Int) ≤ actor.coins → target.cards = [] →
      okHandLen (stepNonexchangeAction g aIdx Move.assassinate (some ti) false) ti =
        some 0) ∧
    (playerHandLen gC10 1 = 1 ∧
     (playTurn envC10 gC10).1 = Except.error "IndexError: pop from empty list") := by
  refine ⟨?_, ?_, by decide, by decide⟩
  · intro g aIdx ti actor target ha ht hne h7 hcs
    have hcond : ¬(actor.coins < 7 ∨ (some ti : Option Nat) = none) := by
      push_neg
      exact ⟨h7, by simp⟩
    have hget1 : (g.players.set aIdx { actor with coins := actor.coins - 7 })[ti]? =
        some target := by rw [get?_set_diff _ _ _ _ hne]; exact ht
    have hlose := loseInfluence_eq_error
      (setPlayer g aIdx { actor with coins := actor.coins - 7 }) ti target
      (by simpa [setPlayer] using hget1) hcs
    simp only [setPlayer] at hlose
    simp only [stepNonexchangeAction, ha, if_neg hcond, setPlayer, hlose]
    simp
  · intro g aIdx ti actor target ha ht hne h3 hcs
    have hcond : ¬(actor.coins < 3 ∨ (some ti : Option Nat) = none) := by
      push_neg
      exact ⟨h3, by simp⟩
    have hget1 : (g.players.set aIdx { actor with coins := actor.coins - 3 })[ti]? =
        some target := by rw [get?_set_diff _ _ _ _ hne]; exact ht
    have hdead : target.alive = false := by
      simp [Player.alive, hcs]
    have hstep : stepNonexchangeAction g aIdx Move.assassinate (some ti) false =
        Except.ok (setPlayer g aIdx { actor with coins := actor.coins - 3 }) := by
      simp only [stepNonexchangeAction, ha, if_neg hcond, setPlayer, hget1, hdead]
      simp
    rw [hstep]
    simp only [okHandLen, playerHandLen, setPlayer, hget1]
    simp [hcs]

theorem replacePlayerCard_eq (sh : List Card → List Card)
    (hsh : ∀ l : List Card, (sh l).Perm l)
    (g : Game) (pi : Nat) (p : Player) (c : Card)
    (hp : g.players[pi]? = some p) (hc : c ∈ p.cards) :
    ∃ nc dk, sh (g.deck ++ [c]) = nc :: dk ∧
      replacePlayerCard sh g pi c =
        Except.ok (nc, { g with
          players := (g.players.set pi { p with cards := p.cards.erase c }).set pi
            { cards := p.cards.erase c ++ [nc], coins := p.coins },
          deck := dk }) := by
  have hlen : (sh (g.deck ++ [c])).length = g.deck.length + 1 := by
    rw [(hsh (g.deck ++ [c])).length_eq]; simp
  cases hdk : sh (g.deck ++ [c]) with
  | nil => rw [hdk] at hlen; simp at hlen
  | cons nc dk =>
    refine ⟨nc, dk, rfl, ?_⟩
    have hpi : pi < g.players.length := lt_of_get?_some _ _ _ hp
    have hg1 : (g.players.set pi { p with cards := p.cards.erase c })[pi]? =
        some { p with cards := p.cards.erase c } :=
      get?_set_same _ _ _ (by simpa using hpi)
    simp only [replacePlayerCard, returnPlayerCard, hp, if_pos hc, shuffleDeck, dealCard,
      hdk, hg1, setPlayer]

theorem challengeLoop_wta_iff (sh : List Card → List Card) (chDec : Nat → Bool)
    (actingIdx : Nat) (m : Move) (g : Game) :
    ∀ (l : List Nat) (log : List Solicit) (g2 : Game) (wta anyA : Bool)
      (outc : Option (Nat × Bool × Card)),
      challengeLoopAux sh chDec actingIdx m g l = (log, Except.ok (g2, wta, anyA, outc)) →
      (wta = false ↔ ∃ j cc, outc = some (j, true, cc)) := by
  intro l
  induction l with
  | nil =>
    intro log g2 wta anyA outc h
    simp only [challengeLoopAux, Prod.mk.injEq, Except.ok.injEq] at h
    obtain ⟨-, hg, hwta, -, houtc⟩ := h
    subst hwta
    subst houtc
    simp
  | cons i rest ih =>
    intro log g2 wta anyA outc h
    simp only [challengeLoopAux] at h
    cases hp : g.players[(actingIdx + i) % g.players.length]? with
    | none =>
      simp only [hp] at h
      simp at h
    | some p =>
      simp only [hp] at h
      cases hal : p.alive with
      | false =>
        simp only [hal] at h
        simp only [Bool.false_eq_true, if_false] at h
        exact ih log g2 wta anyA outc h
      | true =>
        simp only [hal, if_true] at h
        cases hcd : chDec ((actingIdx + i) % g.players.length) with
        | true =>
          simp only [hcd, if_true] at h
          cases hsc : stepChallenge sh g actingIdx m
              ((actingIdx + i) % g.players.length) with
          | error e =>
            simp only [hsc] at h
            simp at h
          | ok t =>
            obtain ⟨s, cl, g1⟩ := t
            simp only [hsc, Prod.mk.injEq, Except.ok.injEq] at h
            obtain ⟨-, hg, hwta, -, houtc⟩ := h
            subst hwta
            subst houtc
            cases s with
            | true => simp
            | false => simp
        | false =>
          simp only [hcd, Bool.false_eq_true, if_false] at h
          cases hrec : challengeLoopAux sh chDec actingIdx m g rest with
          | mk log1 res =>
            cases res with
            | error e =>
              simp only [hrec] at h
              simp at h
            | ok t =>
              obtain ⟨g2x, wtax, anyAx, outcx⟩ := t
              simp only [hrec, Prod.mk.injEq, Except.ok.injEq] at h
              obtain ⟨-, hg, hwta, -, houtc⟩ := h
              subst hwta
              subst houtc
              exact ih _ _ _ _ _ hrec

/-- Claim C4.  Challenge resolution (game.py lines 169-179 and the loop at
200-208): the challenge succeeds iff the actor holds no card satisfying
`enabled_by`; on success the actor loses one card, on failure the challenger
loses one card while the actor's hand size is unchanged after the
reveal-and-redraw; and in the challenge loop, `will_take_action` is false
(the move's effect is skipped, see the `if will_take_action` gate in
play_turn) exactly when a resolved challenge succeeded. -/
theorem claim_C4_challenge_resolution :
    ∀ (sh : List Card → List Card), (∀ l : List Card, (sh l).Perm l) →
    ∀ (g : Game) (aIdx chIdx : Nat) (actor challenger : Player) (m : Move)
      (s : Bool) (c : Card) (g' : Game),
      g.players[aIdx]? = some actor →
      g.players[chIdx]? = some challenger →
      aIdx ≠ chIdx →
      challenger.alive = true →
      stepChallenge sh g aIdx m chIdx = Except.ok (s, c, g') →
      ((s = true ↔ actor.cards.any (fun cd => m.enabled_by cd) = false) ∧
       (s = true → playerHandLen g' aIdx + 1 = playerHandLen g aIdx) ∧
       (s = false → playerHandLen g' aIdx = playerHandLen g aIdx ∧
         playerHandLen g' chIdx + 1 = playerHandLen g chIdx)) ∧
      (∀ (chDec : Nat → Bool) (l : List Nat) (log : List Solicit) (g2 : Game)
         (wta anyA : Bool) (outc : Option (Nat × Bool × Card)),
        challengeLoopAux sh chDec aIdx m g l = (log, Except.ok (g2, wta, anyA, outc)) →
        (wta = false ↔ ∃ j cc, outc = some (j, true, cc))) := by
  intro sh hsh g aIdx chIdx actor challenger m s c g' ha hch hne halive hstep
  refine ⟨?_, fun chDec l => challengeLoop_wta_iff sh chDec aIdx m g l⟩
  have haLt : aIdx < g.players.length := lt_of_get?_some _ _ _ ha
  have hchLt : chIdx < g.players.length := lt_of_get?_some _ _ _ hch
  cases hany : actor.cards.any (fun cd => m.enabled_by cd) with
  | false =>
    cases hcs : actor.cards with
    | nil =>
      have := loseInfluence_eq_error g aIdx actor ha hcs
      simp only [stepChallenge, ha, hany, Bool.not_false, if_true, this] at hstep
      exact absurd hstep (by simp)
    | cons c0 rest =>
      have hlose := loseInfluence_eq_ok g aIdx actor c0 rest ha hcs
      simp only [stepChallenge, ha, hany, Bool.not_false, if_true, hlose,
        Except.ok.injEq, Prod.mk.injEq] at hstep
      obtain ⟨hs, hcc, hgg⟩ := hstep
      subst hs
      subst hgg
      refine ⟨by simp, ?_, by simp⟩
      intro _
      simp only [playerHandLen, setPlayer, get?_set_same _ _ _ haLt, ha, hcs]
      simp
  | true =>
    have hcards : challenger.cards ≠ [] := by
      intro hnil
      have : (0 : Nat) < challenger.cards.length := of_decide_eq_true halive
      rw [hnil] at this
      simp at this
    obtain ⟨d, ds, hds⟩ : ∃ d ds, challenger.cards = d :: ds := by
      cases hdd : challenger.cards with
      | nil => exact absurd hdd hcards
      | cons a b => exact ⟨a, b, rfl⟩
    have hlose := loseInfluence_eq_ok g chIdx challenger d ds hch hds
    have hga1 : (g.players.set chIdx { challenger with cards := ds })[aIdx]? =
        some actor := by
      rw [get?_set_diff _ _ _ _ (fun hh => hne hh.symm)]; exact ha
    cases hf : actor.cards.find? (fun cd => m.enabled_by cd) with
    | none =>
      exfalso
      have hnone := List.find?_eq_none.mp hf
      obtain ⟨x, hx, hpx⟩ := List.any_eq_true.mp hany
      exact absurd hpx (by simpa using hnone x hx)
    | some cr =>
      have hmem : cr ∈ actor.cards := List.mem_of_find?_eq_some hf
      have hrep := replacePlayerCard_eq sh hsh
        (setPlayer g chIdx { challenger with cards := ds }) aIdx actor cr
        (by simpa [setPlayer] using hga1) hmem
      obtain ⟨nc, dk, hdk, hrepEq⟩ := hrep
      simp only [setPlayer] at hrepEq
      simp only [stepChallenge, ha, hany, Bool.not_true, Bool.false_eq_true, if_false,
        hlose, setPlayer, hga1, hf, hrepEq, Except.ok.injEq, Prod.mk.injEq] at hstep
      obtain ⟨hs, hcc, hgg⟩ := hstep
      subst hs
      subst hgg
      refine ⟨by simp [hany], by simp, ?_⟩
      intro _
      constructor
      · simp only [playerHandLen, setPlayer]
        rw [get?_set_same _ _ _ (by simpa using haLt), ha]
        have : cr ∈ actor.cards := hmem
        have hel := List.length_erase_of_mem this
        have hpos : 0 < actor.cards.length := List.length_pos_of_mem this
        simp [hel]
        omega
      · simp only [playerHandLen, setPlayer]
        rw [get?_set_diff _ _ _ _ hne, get?_set_diff _ _ _ _ hne,
          get?_set_same _ _ _ hchLt]
        simp [hch, hds]

/-- Witness for claim C4: a challenged Tax declared without a Duke; the
challenge succeeds and the actor loses a card. -/
theorem claim_C4_witness :
    stepChallenge (fun l => l) gC4w 0 Move.tax 1 =
      Except.ok (true, Card.assassin, gC4wAfter) ∧
    (true = true ↔ List.any [Card.assassin] (fun cd => Move.tax.enabled_by cd) = false) ∧
    playerHandLen gC4wAfter 0 + 1 = playerHandLen gC4w 0 := by
  have h := claim_C4_challenge_resolution (fun l => l) (fun l => List.Perm.refl l)
    gC4w 0 1 { cards := [Card.assassin], coins := 2 } { cards := [Card.contessa], coins := 2 }
    Move.tax true Card.assassin gC4wAfter (by decide) (by decide) (by decide) (by decide)
    (by decide)
  exact ⟨by decide, h.1.1, h.1.2.1 rfl⟩

/-- Witness for claim C10: at a concrete state whose target hand is empty,
Coup's effect raises while Assassinate's effect is a no-op on the hand. -/
theorem claim_C10_witness :
    stepNonexchangeAction gC10w 0 Move.coup (some 1) false =
      Except.error "IndexError: pop from empty list" ∧
    okHandLen (stepNonexchangeAction gC10w 0 Move.assassinate (some 1) false) 1 = some 0 :=
  ⟨(claim_C10_coup_effect_skips_liveness_recheck).1 gC10w 0 1
    { cards := [Card.duke], coins := 7 } { cards := [], coins := 2 }
    (by decide) (by decide) (by decide) (by decide) (by decide),
   (claim_C10_coup_effect_skips_liveness_recheck).2.1 gC10w 0 1
    { cards := [Card.duke], coins := 7 } { cards := [], coins := 2 }
    (by decide) (by decide) (by decide) (by decide) (by decide)⟩

theorem challengeLoop_log_living (sh : List Card → List Card) (chDec : Nat → Bool)
    (actingIdx : Nat) (m : Move) (g : Game) :
    ∀ (l : List Nat) (e : Solicit),
      e ∈ (challengeLoopAux sh chDec actingIdx m g l).1 → decisionSolicitsLiving e := by
  intro l
  induction l with
  | nil => intro e he; simp [challengeLoopAux] at he
  | cons i rest ih =>
    intro e he
    simp only [challengeLoopAux] at he
    cases hp : g.players[(actingIdx + i) % g.players.length]? with
    | none => simp [hp] at he
    | some p =>
      simp only [hp] at he
      cases hal : p.alive with
      | false =>
        simp only [hal, Bool.false_eq_true, if_false] at he
        exact ih e he
      | true =>
        simp only [hal, if_true] at he
        cases hcd : chDec ((actingIdx + i) % g.players.length) with
        | true =>
          simp only [hcd, if_true] at he
          cases hsc : stepChallenge sh g actingIdx m
              ((actingIdx + i) % g.players.length) with
          | error e2 =>
            simp only [hsc] at he
            simp at he
            subst he
            simp [decisionSolicitsLiving]
          | ok t =>
            obtain ⟨s, cl, g1⟩ := t
            simp only [hsc] at he
            simp at he
            subst he
            simp [decisionSolicitsLiving]
        | false =>
          simp only [hcd, Bool.false_eq_true, if_false] at he
          cases hrec : challengeLoopAux sh chDec actingIdx m g rest with
          | mk log1 res =>
            simp only [hrec] at he
            simp at he
            cases he with
            | inl h1 => subst h1; simp [decisionSolicitsLiving]
            | inr h2 => exact ih e (by rw [hrec]; exact h2)

theorem blockLoop_log_living (sh : List Card → List Card) (blDec bcDec : Nat → Bool)
    (actingIdx : Nat) (m : Move) :
    ∀ (l : List Nat) (g : Game) (blocked : Bool) (e : Solicit),
      e ∈ (blockLoopAux sh blDec bcDec actingIdx m g blocked l).1 →
      decisionSolicitsLiving e := by
  intro l
  induction l with
  | nil => intro g blocked e he; simp [blockLoopAux] at he
  | cons i rest ih =>
    intro g blocked e he
    simp only [blockLoopAux] at he
    cases hp : g.players[(actingIdx + i) % g.players.length]? with
    | none => simp [hp] at he
    | some p =>
      simp only [hp] at he
      cases hal : p.alive with
      | false =>
        simp only [hal, Bool.false_eq_true, if_false] at he
        exact ih g blocked e he
      | true =>
        simp only [hal, if_true] at he
        cases hbd : blDec ((actingIdx + i) % g.players.length) with
        | false =>
          simp only [hbd, Bool.false_eq_true, if_false] at he
          cases hrec : blockLoopAux sh blDec bcDec actingIdx m g blocked rest with
          | mk log1 res =>
            simp only [hrec] at he
            simp at he
            cases he with
            | inl h1 => subst h1; simp [decisionSolicitsLiving]
            | inr h2 => exact ih g blocked e (by rw [hrec]; exact h2)
        | true =>
          simp only [hbd, if_true] at he
          cases hbc : bcDec ((actingIdx + i) % g.players.length) with
          | false =>
            simp only [hbc, Bool.false_eq_true, if_false] at he
            cases hrec : blockLoopAux sh blDec bcDec actingIdx m g true rest with
            | mk log1 res =>
              simp only [hrec] at he
              simp at he
              rcases he with h1 | h2 | h3
              · subst h1; simp [decisionSolicitsLiving]
              · subst h2; simp [decisionSolicitsLiving]
              · exact ih g true e (by rw [hrec]; exact h3)
          | true =>
            simp only [hbc, if_true] at he
            cases hsc : stepBlockChallenge sh g actingIdx m
                ((actingIdx + i) % g.players.length) with
            | error e2 =>
              simp only [hsc] at he
              simp at he
              rcases he with h1 | h2
              · subst h1; simp [decisionSolicitsLiving]
              · subst h2; simp [decisionSolicitsLiving]
            | ok t =>
              obtain ⟨s, cl, g1⟩ := t
              simp only [hsc] at he
              cases hrec : blockLoopAux sh blDec bcDec actingIdx m g1 (!s) rest with
              | mk log1 res =>
                simp only [hrec] at he
                simp at he
                rcases he with h1 | h2 | h3
                · subst h1; simp [decisionSolicitsLiving]
                · subst h2; simp [decisionSolicitsLiving]
                · exact ih g1 (!s) e (by rw [hrec]; exact h3)

theorem effectStep_log (env : Env) (actingIdx : Nat) (m : Move)
    (targetIdx : Option Nat) (wta blocked : Bool) (g : Game) (e : Solicit) :
    e ∈ (effectStep env actingIdx m targetIdx wta blocked g).1 →
    decisionSolicitsLiving e := by
  intro he
  simp only [effectStep] at he
  cases wta with
  | false => simp at he
  | true =>
    simp only [if_true] at he
    by_cases hm : m = Move.exchange
    · simp only [if_pos hm] at he
      cases hex : exchangeCardsToChooseFrom g actingIdx with
      | error e2 => simp [hex] at he
      | ok t =>
        obtain ⟨cards, g1⟩ := t
        simp [hex] at he
    · simp only [if_neg hm] at he
      simp at he

/-- Claim C2 (amended).  In `play_turn` every challenge-decision and
block-decision callback goes to a player alive at the moment of the call
(`_iterate_other_players` filters on liveness, game.py lines 105-110); but
no liveness re-check protects the current player: `play_turn` asks the
current player to declare (and, on a block, to counter-challenge) whether or
not they still hold a card. -/
theorem claim_C2_decision_callbacks_liveness :
    ∀ (env : Env) (g : Game) (e : Solicit),
      e ∈ (playTurn env g).2 → decisionSolicitsLiving e := by
  intro env g e he
  simp only [playTurn] at he
  cases hcur : g.players[g.acting_player_index]? with
  | none => simp [hcur] at he
  | some current =>
    simp only [hcur] at he
    cases hct : checkTarget g (resolveTarget g env.action_info.target_player_index) with
    | error e2 =>
      simp only [hct] at he
      simp at he
      subst he
      simp [decisionSolicitsLiving]
    | ok u =>
      simp only [hct] at he
      cases hch : challengeLoopAux env.sh env.challenge_decision g.acting_player_index
          env.action_info.move g (List.range' 1 (g.players.length - 1)) with
      | mk chLog chRes =>
        simp only [hch] at he
        cases chRes with
        | error e2 =>
          simp at he
          rcases he with h1 | h2
          · subst h1; simp [decisionSolicitsLiving]
          · exact challengeLoop_log_living env.sh env.challenge_decision
              g.acting_player_index env.action_info.move g _ e (by rw [hch]; exact h2)
        | ok t =>
          obtain ⟨g1, wta, chAsked, outc⟩ := t
          cases hbl : blockLoopAux env.sh env.block_decision env.block_challenge_decision
              g.acting_player_index env.action_info.move g1 false
              (List.range' 1 (g.players.length - 1)) with
          | mk blLog blRes =>
            simp only [hbl] at he
            cases blRes with
            | error e2 =>
              simp at he
              rcases he with h1 | h2 | h3
              · subst h1; simp [decisionSolicitsLiving]
              · exact challengeLoop_log_living env.sh env.challenge_decision
                  g.acting_player_index env.action_info.move g _ e (by rw [hch]; exact h2)
              · exact blockLoop_log_living env.sh env.block_decision
                  env.block_challenge_decision g.acting_player_index
                  env.action_info.move _ g1 false e (by rw [hbl]; exact h3)
            | ok t2 =>
              obtain ⟨g2, blocked, blAsked, baf⟩ := t2
              cases heff : effectStep env g.acting_player_index env.action_info.move
                  (resolveTarget g env.action_info.target_player_index) wta blocked g2 with
              | mk effLog effRes =>
                simp only [heff] at he
                have hmem : e ∈ [Solicit.declare g.acting_player_index current.alive]
                    ++ chLog ++ blLog ++ effLog → decisionSolicitsLiving e := by
                  intro hx
                  simp only [List.mem_append, List.mem_singleton] at hx
                  rcases hx with ((h1 | h2) | h3) | h4
                  · subst h1; simp [decisionSolicitsLiving]
                  · exact challengeLoop_log_living env.sh env.challenge_decision
                      g.acting_player_index env.action_info.move g _ e (by rw [hch]; exact h2)
                  · exact blockLoop_log_living env.sh env.block_decision
                      env.block_challenge_decision g.acting_player_index
                      env.action_info.move _ g1 false e (by rw [hbl]; exact h3)
                  · exact effectStep_log env g.acting_player_index env.action_info.move
                      (resolveTarget g env.action_info.target_player_index) wta blocked g2 e
                      (by rw [heff]; exact h4)
                cases effRes with
                | error e2 =>
                  apply hmem
                  simpa using he
                | ok g3 =>
                  cases hobs : observationStep g3 chAsked blAsked with
                  | error e2 =>
                    simp only [hobs] at he
                    apply hmem
                    simpa using he
                  | ok views =>
                    simp only [hobs] at he
                    apply hmem
                    simpa using he

/-- Counterexample for claim C2: at `gC2` the current player's hand is empty,
yet `play_turn` still solicits their move declaration (a `declare` callback
with liveness flag `false`), and the dead player's Income even takes effect,
leaving them with 3 coins. -/
theorem claim_C2_counterexample :
    gC2.players[0]? = some { cards := [], coins := 2 } ∧
    Solicit.declare 0 false ∈ (playTurn envC2 gC2).2 ∧
    okCoins (playTurn envC2 gC2).1 0 = some 3 := by decide

/-- Witness for claim C2 (amended): a concrete challenge-decision
solicitation found in a turn log, with its liveness flag proved true by the
amended theorem. -/
theorem claim_C2_witness :
    Solicit.challengeDecision 1 true ∈ (playTurn envC2 gC2).2 ∧
    decisionSolicitsLiving (Solicit.challengeDecision 1 true) :=
  ⟨by decide, claim_C2_decision_callbacks_liveness envC2 gC2 _ (by decide)⟩

/-- Claim C3.  The block loop of `play_turn` (game.py lines 210-220) has no
`break`, unlike the challenge loop: in the concrete 3-player turn `envC3`,
seat 1 opts to block, yet seat 2 is still asked for a block decision
afterwards, and the actor is asked for a block-challenge decision twice —
refuting "the first player who opts to block stops the iteration". -/
theorem claim_C3_block_loop_has_no_break :
    envC3.block_decision 1 = true ∧
    Solicit.blockDecision 1 true ∈ (playTurn envC3 gC3).2 ∧
    Solicit.blockDecision 2 true ∈ (playTurn envC3 gC3).2 ∧
    List.count (Solicit.blockChallengeDecision 0 true) (playTurn envC3 gC3).2 = 2 := by
  decide

/-- Counterexample for claim C9: Income has no blocking roles
(`blockable_by` has no branch for it and yields `None` on every card), yet
in the concrete Income turn `envC9` the other living player is still asked
for a block decision. -/
theorem claim_C9_counterexample :
    envC9.action_info.move = Move.income ∧
    ([Card.duke, Card.assassin, Card.captain, Card.ambassador, Card.contessa].all
      (fun cd => Move.income.blockable_by cd == none)) = true ∧
    Solicit.blockDecision 1 true ∈ (playTurn envC9 gC9).2 := by decide

/-- Claim C9 (amended).  The block window never consults the declared move's
blocking roles: for every move `m`, the block loop solicits a block decision
from every living other player (here with all block decisions declined, so
the loop mutates nothing); the solicitation list does not depend on `m`. -/
theorem claim_C9_block_offered_regardless_of_move :
    ∀ (sh : List Card → List Card) (bcDec : Nat → Bool) (actingIdx : Nat)
      (m : Move) (g : Game) (blocked : Bool) (l : List Nat),
      0 < g.players.length →
      (blockLoopAux sh (fun _ => false) bcDec actingIdx m g blocked l).1 =
        l.filterMap (fun i =>
          match g.players[(actingIdx + i) % g.players.length]? with
          | some p =>
            if p.alive
            then some (Solicit.blockDecision ((actingIdx + i) % g.players.length) p.alive)
            else none
          | none => none) := by
  intro sh bcDec actingIdx m g blocked l hpos
  induction l with
  | nil => simp [blockLoopAux]
  | cons i rest ih =>
    have hlt : (actingIdx + i) % g.players.length < g.players.length :=
      Nat.mod_lt _ hpos
    cases hp : g.players[(actingIdx + i) % g.players.length]? with
    | none =>
      exfalso
      rw [List.getElem?_eq_none_iff] at hp
      omega
    | some p =>
      simp only [blockLoopAux, hp, List.filterMap_cons]
      cases hal : p.alive with
      | false =>
        simp only [hal, Bool.false_eq_true, if_false]
        exact ih
      | true =>
        simp only [hal, if_true, Bool.false_eq_true, if_false]
        cases hrec : blockLoopAux sh (fun _ => false) bcDec actingIdx m g blocked rest with
        | mk log1 res =>
          rw [hrec] at ih
          simp only [hrec]
          exact congrArg (List.cons _) ih

/-- Witness for claim C9 (amended): in the Income turn at `gC9` the block
loop solicits exactly the one living other player. -/
theorem claim_C9_witness :
    (blockLoopAux (fun l => l) (fun _ => false) (fun _ => false) 0 Move.income
      gC9 false [1]).1 = [Solicit.blockDecision 1 true] :=
  (claim_C9_block_offered_regardless_of_move (fun l => l) (fun _ => false) 0
    Move.income gC9 false [1] (by decide)).trans (by decide)

/-- Claim C6.  `to_game_view` (game.py lines 262-272) indexes
`self.players[observer_index + i]` without a modulo and filters
`i != observer_index`: in the post-turn observation step of a 2-player game,
observer 0 gets the other player's coins and hand size but observer 1's
"other player" lists come out empty (instead of holding seat 0's coin count
and hand size), and for 3 or more players any observer index other than 0
raises IndexError.  (`Game.__init__` itself never reaches its line-64 views:
it raises TypeError at the first `Player(name=...)` construction, so a
3-player game cannot even be built.) -/
theorem claim_C6_game_view_wrong_for_nonzero_observer :
    toGameView gC6a 1 = Except.ok
      { observer_index := 1, observer_coins := 4, observer_cards := [Card.assassin]
        other_player_coins := [], other_player_card_counts := [] } ∧
    gC6a.players.length = 2 ∧
    toGameView gC6b 1 = Except.error "IndexError: list index out of range" ∧
    observationStep gC6a true true = Except.ok
      [{ observer_index := 0, observer_coins := 5, observer_cards := [Card.duke]
         other_player_coins := [4], other_player_card_counts := [1] },
       { observer_index := 1, observer_coins := 4, observer_cards := [Card.assassin]
         other_player_coins := [], other_player_card_counts := [] }] ∧
    initGame [Card.duke, Card.assassin, Card.captain, Card.ambassador, Card.contessa] 3 1 2 =
      Except.error "TypeError: Player.__init__ got an unexpected keyword argument" := by
  decide

/-- Claim C7.  Two defects refute the claim.  First, an Exchange turn never
completes: after `_exchange_cards_to_choose_from` deals exactly 2 extra
cards (here DUKE and CAPTAIN off `gC7`), line 225 of play_turn calls
`current_player.choose_cards`, a method `Player` does not define, so the
concrete turn `envC7` ends in AttributeError before `_complete_exchange`.
Second, the written completion logic `_complete_exchange` itself never
reshuffles: the resulting deck is exactly `old_deck ++ returned` for any
shuffle oracle — concretely `[CONTESSA, AMBASSADOR, DUKE]` at the post-draw
state `gC7Mid`, a list the turn's `List.reverse` oracle would not have left
fixed. -/
theorem claim_C7_exchange_returns_cards_without_reshuffle :
    (∀ (g : Game) (pi : Nat) (p : Player) (cardsFrom chosen r : List Card),
      g.players[pi]? = some p →
      removeChosen chosen cardsFrom = Except.ok r →
      okDeck (completeExchange g pi cardsFrom chosen) = some (g.deck ++ r)) ∧
    (exchangeCardsToChooseFrom gC7 0 =
       Except.ok ([Card.ambassador, Card.duke, Card.captain], gC7Mid) ∧
     okDeck (completeExchange gC7Mid 0 [Card.ambassador, Card.duke, Card.captain]
       [Card.captain]) = some [Card.contessa, Card.ambassador, Card.duke] ∧
     envC7.sh [Card.contessa, Card.ambassador, Card.duke] ≠
       [Card.contessa, Card.ambassador, Card.duke] ∧
     (playTurn envC7 gC7).1 =
       Except.error "AttributeError: Player object has no attribute choose_cards") := by
  refine ⟨?_, by decide, by decide, by decide, by decide⟩
  intro g pi p cardsFrom chosen r hp hr
  simp only [completeExchange, hp, hr, setPlayer, okDeck]

/-- Witness for claim C7: the general no-reshuffle fact evaluated at the
concrete exchange of `gC7`. -/
theorem claim_C7_witness :
    okDeck (completeExchange gC7 0 [Card.ambassador, Card.duke, Card.captain]
      [Card.captain]) = some (gC7.deck ++ [Card.ambassador, Card.duke]) :=
  (claim_C7_exchange_returns_cards_without_reshuffle).1 gC7 0
    { cards := [Card.ambassador], coins := 2 }
    [Card.ambassador, Card.duke, Card.captain] [Card.captain]
    [Card.ambassador, Card.duke] (by decide) (by decide)

end Coup
